import Mathlib

/-!
Verification development for the mcpboss-js deployment-monitoring engine.

The definitions below shallowly embed the deployment progress state machine
of `src/src/hosted.ts` (the `DeploymentState` data model, the
`DeploymentLogPayload` event-listener reducer of `showDeploymentProgress`,
its terminal-decision checks, the 5-minute timeout timer guard, and the
`fetchCrashLogs` bounded-retry poller), together with a model, written from
the specification, of the Outcome-returning deployment monitor that the CLI
commands call but whose source file is not part of the source tree.
-/

namespace Mcpboss

/-- Container kind: `'init' | 'main'` (field `type` of `ContainerState` in
`src/src/hosted.ts`). -/
inductive CKind where
  | init
  | main
deriving DecidableEq, Repr

/-- Container status.  `src/src/hosted.ts` line 244 declares
`'pending' | 'running' | 'completed' | 'failed' | 'ready'`; the constructor
`crashBackOff` exists only in the specification's canonical data model (§3)
and is never produced by the reducer embedded from `hosted.ts`. -/
inductive ContainerStatus where
  | pending
  | running
  | completed
  | failed
  | ready
  | crashBackOff
deriving DecidableEq, Repr

/-- `ContainerState` of `src/src/hosted.ts` (lines 246-254).  The field
`restarts` is part of the specification's canonical record (§3) only;
the `hosted.ts` reducer never writes it. -/
structure ContainerState where
  name : String
  type : CKind
  status : ContainerStatus
  startedAt : Option String := none
  finishedAt : Option String := none
  exitCode : Option Int := none
  reason : Option String := none
  restarts : Option Int := none
deriving DecidableEq, Repr

/-- The `podInfo` payload recorded into `DeploymentState.podInfo`
(`src/src/hosted.ts` lines 257-262): `containers` is the list of main
container names, `initContainers` the init container names. -/
structure PodInfo where
  createdAt : String
  pod : String
  initContainers : List String
  containers : List String
deriving DecidableEq, Repr

/-- `DeploymentState` of `src/src/hosted.ts` (lines 256-272).  The JS
`Record<string, ContainerState>` is modelled as a list of records with
unique names in insertion order (JS object key order); `crashLogs` is set
only by the asynchronous crash-log callback and is modelled separately by
`fetchCrashLogs`, so it is not a field here. -/
structure DeploymentState where
  podInfo : Option PodInfo := none
  containers : List ContainerState := []
  errors : List String := []
  isComplete : Bool := false
  isReady : Bool := false
  hasCrashed : Bool := false
deriving DecidableEq, Repr

/-- The fresh state built at the top of `showDeploymentProgress`
(`src/src/hosted.ts` lines 276-282). -/
def initialDeploymentState : DeploymentState :=
  { containers := [], errors := [], isComplete := false, isReady := false,
    hasCrashed := false }

/-- JS object assignment `containers[name] = c`: replace the entry with that
name in place, or append it if the key is new (JS objects keep insertion
order, hold at most one entry per key, and replace values of existing keys
without moving them). -/
def setC : List ContainerState → ContainerState → List ContainerState
  | [], c => [c]
  | d :: rest, c => if d.name = c.name then c :: rest else d :: setC rest c

/-- JS object read `containers[name]`. -/
def lookupC (cs : List ContainerState) (name : String) : Option ContainerState :=
  cs.find? (fun d => d.name = name)

/-- The status of container `name` in state `s`, when it exists. -/
def statusOf (s : DeploymentState) (name : String) : Option ContainerStatus :=
  (lookupC s.containers name).map (fun c => c.status)

/-- The parsed `DeploymentLogPayload` variants that the event switch of
`showDeploymentProgress` (`src/src/hosted.ts` lines 430-542) inspects.
`done` is handled before the switch and is kept out of this type (see
`RawInput.done`).  `mainContainerCrashBackOff` is part of the wire protocol
(spec §6) but has no case in the `hosted.ts` switch. -/
inductive Event where
  | podInfo (info : PodInfo)
  | initContainerRunning (name : String)
  | initContainerTerminated (name : String) (startedAt finishedAt : String)
      (exitCode : Int) (reason : Option String)
  | mainContainerRunning
  | mainContainerReady
  | mainContainerCrashed (startedAt finishedAt : String)
      (exitCode : Int) (reason : Option String)
  | mainContainerCrashBackOff (reason : Option String) (restarts : Int)
  | errorEvent (message : String)
deriving DecidableEq, Repr

/-- The `case 'podInfo'` branch (`src/src/hosted.ts` lines 431-455): set
`podInfo` unconditionally, then assign a fresh pending record for every
name in `initContainers` and then for every name in `containers`, into the
existing container map. -/
def applyPodInfo (s : DeploymentState) (info : PodInfo) : DeploymentState :=
  let cs1 := info.initContainers.foldl
    (fun acc n => setC acc { name := n, type := .init, status := .pending }) s.containers
  let cs2 := info.containers.foldl
    (fun acc n => setC acc { name := n, type := .main, status := .pending }) cs1
  { s with podInfo := some info, containers := cs2 }

/-- The event switch of `showDeploymentProgress` (`src/src/hosted.ts` lines
430-542) as a pure state-transition function.  Events with no case in the
switch (`mainContainerCrashBackOff`) leave the state unchanged. -/
def reduce (s : DeploymentState) (e : Event) : DeploymentState :=
  match e with
  | .podInfo info => applyPodInfo s info
  | .initContainerRunning name =>
      { s with containers := s.containers.map (fun c =>
          if c.name = name then { c with status := .running } else c) }
  | .initContainerTerminated name startedAt finishedAt exitCode reason =>
      { s with containers := s.containers.map (fun c =>
          if c.name = name then
            { c with
              status := if exitCode = 0 then .completed else .failed,
              startedAt := some startedAt,
              finishedAt := some finishedAt,
              exitCode := some exitCode,
              reason := reason }
          else c) }
  | .mainContainerRunning =>
      { s with containers := s.containers.map (fun c =>
          if c.type = .main then { c with status := .running } else c) }
  | .mainContainerReady =>
      { s with
        containers := s.containers.map (fun c =>
          if c.type = .main then { c with status := .ready } else c),
        isReady := true }
  | .mainContainerCrashed startedAt finishedAt exitCode reason =>
      { s with
        containers := s.containers.map (fun c =>
          if c.type = .main then
            { c with
              status := .failed,
              startedAt := some startedAt,
              finishedAt := some finishedAt,
              exitCode := some exitCode,
              reason := reason }
          else c),
        hasCrashed := true }
  | .mainContainerCrashBackOff _ _ => s
  | .errorEvent message => { s with errors := s.errors ++ [message] }

/-- Apply the `hosted.ts` event switch to a whole event sequence, in
server-emission order. -/
def reduceList (s : DeploymentState) (es : List Event) : DeploymentState :=
  es.foldl reduce s

/-- One delivery to the `DeploymentLogPayload` event listener of
`showDeploymentProgress` (`src/src/hosted.ts` lines 404-570), after the
attempted `JSON.parse`: `invalidJson` is a payload whose parsing (or
subsequent field access) throws and lands in the catch block; `unknownType`
is a payload that parses but whose `type` matches no switch case; `done`
is the sentinel handled before the switch; `ev e` is a recognized event. -/
inductive RawInput where
  | invalidJson
  | unknownType
  | done
  | ev (e : Event)
deriving DecidableEq, Repr

/-- How the promise of the `hosted.ts` `showDeploymentProgress` settles:
`resolved` is a plain `resolve()`; `rejectedCrash c` is the
crash rejection whose message is built from the first main container `c`
(if any); `rejectedTimeout` is the 5-minute timer's rejection. -/
inductive HostedOutcome where
  | resolved
  | rejectedCrash (mainC : Option ContainerState)
  | rejectedTimeout
deriving DecidableEq, Repr

/-- `Object.values(deploymentState.containers).find(c => c.type === 'main')`
(`src/src/hosted.ts` line 417 and line 558): JS object value order is
insertion order, i.e. list order here. -/
def findMain (cs : List ContainerState) : Option ContainerState :=
  cs.find? (fun c => c.type = .main)

/-- One step of the `hosted.ts` event listener: the next state, and the
promise settlement it triggers, if any.

* parse failure (`catch` block, lines 565-569): push
  `"Failed to parse deployment log"` onto `errors`; nothing else happens.
* `done` (lines 408-427): set `isComplete`, close the stream, then reject
  with the crash message if `hasCrashed`, else resolve.
* otherwise run the switch (`reduce`; a no-op for `unknownType`), then the
  terminal checks of lines 547-564: resolve if `isReady`, else reject with
  the crash message if `hasCrashed`. -/
def hostedStep (s : DeploymentState) (i : RawInput) :
    DeploymentState × Option HostedOutcome :=
  match i with
  | .invalidJson =>
      ({ s with errors := s.errors ++ ["Failed to parse deployment log"] }, none)
  | .done =>
      ({ s with isComplete := true },
       some (if s.hasCrashed then .rejectedCrash (findMain s.containers)
             else .resolved))
  | .unknownType =>
      (s, if s.isReady then some .resolved
          else if s.hasCrashed then some (.rejectedCrash (findMain s.containers))
          else none)
  | .ev e =>
      let s' := reduce s e
      (s', if s'.isReady then some .resolved
           else if s'.hasCrashed then some (.rejectedCrash (findMain s'.containers))
           else none)

/-- Run the `hosted.ts` listener over a sequence of deliveries.  Once a
settlement is produced the stream has been closed and the promise settled,
so the remaining deliveries are not processed. -/
def runHosted (s : DeploymentState) :
    List RawInput → DeploymentState × Option HostedOutcome
  | [] => (s, none)
  | i :: rest =>
      match hostedStep s i with
      | (s', some o) => (s', some o)
      | (s', none) => runHosted s' rest

/-- The guard of the 5-minute timeout timer (`src/src/hosted.ts` line 583):
the timer body runs iff `isComplete` is still false. -/
def timerFires (s : DeploymentState) : Bool :=
  !s.isComplete

/-- The 5-minute timeout timer body (`src/src/hosted.ts` lines 581-589):
if `isComplete` is still false it closes the stream (again) and rejects. -/
def timerStep (s : DeploymentState) : Option HostedOutcome :=
  if s.isComplete then none else some .rejectedTimeout

/-- Modelled from the spec: the reducer row for `mainContainerCrashBackOff`
(§4.2), which is part of the canonical reducer but missing from the switch
in `src/src/hosted.ts`: every container with kind=main gets status
`crashBackOff` and its `reason` and `restarts` fields set; `hasCrashed` is
not set.  All other rows agree with the `hosted.ts` switch (`reduce`). -/
def specReduce (s : DeploymentState) (e : Event) : DeploymentState :=
  match e with
  | .mainContainerCrashBackOff reason restarts =>
      { s with containers := s.containers.map (fun c =>
          if c.type = .main then
            { c with
              status := .crashBackOff,
              reason := reason,
              restarts := some restarts }
          else c) }
  | _ => reduce s e

/-- The outcome record of the deployment monitor (spec §4.3):
`{ deployed: bool, stabilized: bool, podName: optional string }`. -/
structure Outcome where
  deployed : Bool
  stabilized : Bool
  podName : Option String
deriving DecidableEq, Repr

/-- The pod name the monitor records in the outcome: the `pod` field of
`podInfo` when the stream has delivered one. -/
def podNameOf (s : DeploymentState) : Option String :=
  s.podInfo.map (fun p => p.pod)

/-- One input to the Outcome-returning deployment monitor: a recognized
event, the `done` sentinel, a malformed payload recoverable as an `errors`
entry, an unrecoverable parse failure, the stream transport error
(`onerror`), or the 5-minute wall-clock timeout. -/
inductive MonInput where
  | ev (e : Event)
  | doneEv
  | malformed (message : String)
  | fatalParse
  | streamError
  | timeout
deriving DecidableEq, Repr

/-- Modelled from the spec: one step of the Outcome-returning
`showDeploymentProgress(mcpBoss, functionId, follow)` deployment monitor
that `src/src/commands/hosted/index.ts` and
`src/src/commands/hosted/create.ts` call, whose source file is absent from
the tree (`src/src/hosted.ts` holds only the older promise-rejecting
variant).  Terminal decision policy of §4.3:

* `done` → `deployed := true`, `stabilized := NOT hasCrashed`, and
  `isComplete := true`;
* with `follow = false`, the first `mainContainerReady` resolves
  immediately with `deployed := true, stabilized := true`, and the first
  main-container crash resolves immediately with
  `deployed := true, stabilized := false`; with `follow = true` the monitor
  keeps following until `done`;
* a stream transport error or an unrecoverable parse failure resolves with
  `deployed := false, stabilized := false`;
* the 5-minute timeout, when `isComplete` is still false, resolves with
  `deployed := false, stabilized := false`;
* a recoverable malformed payload is logged to `errors` and the session
  continues.

The monitor is a total function: no failure path throws; every terminal
path yields a well-formed `Outcome` carrying the known pod name. -/
def monitorStep (follow : Bool) (s : DeploymentState) (i : MonInput) :
    DeploymentState × Option Outcome :=
  match i with
  | .doneEv =>
      ({ s with isComplete := true },
       some { deployed := true, stabilized := !s.hasCrashed, podName := podNameOf s })
  | .malformed message =>
      ({ s with errors := s.errors ++ [message] }, none)
  | .fatalParse =>
      (s, some { deployed := false, stabilized := false, podName := podNameOf s })
  | .streamError =>
      (s, some { deployed := false, stabilized := false, podName := podNameOf s })
  | .timeout =>
      if s.isComplete then (s, none)
      else (s, some { deployed := false, stabilized := false, podName := podNameOf s })
  | .ev e =>
      let s' := specReduce s e
      if follow then (s', none)
      else if s'.isReady then
        (s', some { deployed := true, stabilized := true, podName := podNameOf s' })
      else if s'.hasCrashed then
        (s', some { deployed := true, stabilized := false, podName := podNameOf s' })
      else (s', none)

/-- Run the Outcome-returning monitor over a sequence of inputs; exactly
one terminal path fires, and once it has fired no further input is
processed (the stream is closed as the first step of any terminal path). -/
def runMonitor (follow : Bool) (s : DeploymentState) :
    List MonInput → DeploymentState × Option Outcome
  | [] => (s, none)
  | i :: rest =>
      match monitorStep follow s i with
      | (s', some o) => (s', some o)
      | (s', none) => runMonitor follow s' rest

/-- One response of `mcpBoss.api.getDeploymentsLogs` as observed by
`fetchCrashLogs` (`src/src/hosted.ts` lines 205-242): an API-level `error`
field, a thrown exception (caught by the catch block), a response whose
`data.logs` is missing, or a logs object with `stdout`/`stderr`. -/
inductive ApiResp where
  | apiError
  | exn
  | noLogs
  | logs (stdout stderr : String)
deriving DecidableEq, Repr

/-- `const maxRetries = 50` (`src/src/hosted.ts` line 206). -/
def maxRetries : Nat := 50

/-- The recursive `attemptFetch` of `fetchCrashLogs` (`src/src/hosted.ts`
lines 209-239), with the sequence of API responses supplied as a list
(`resps.head` answers the current attempt) and `retryCount` threaded
explicitly.  An API error, a thrown exception, or a missing `data.logs`
returns `null`; a logs object with empty `stdout` retries while
`retryCount < maxRetries`; otherwise the observed logs are returned.
The `[]` case is unreachable when at least `maxRetries + 1` responses are
supplied. -/
def attemptFetch : List ApiResp → Nat → Option (String × String)
  | [], _ => none
  | r :: rest, retryCount =>
      match r with
      | .apiError => none
      | .exn => none
      | .noLogs => none
      | .logs stdout stderr =>
          if stdout = "" ∧ retryCount < maxRetries then
            attemptFetch rest (retryCount + 1)
          else
            some (stdout, stderr)

/-- `fetchCrashLogs` (`src/src/hosted.ts` lines 205-242): run the retry
loop from `retryCount = 0`. -/
def fetchCrashLogs (resps : List ApiResp) : Option (String × String) :=
  attemptFetch resps 0

/-- Total milliseconds spent in `setTimeout` delays by `attemptFetch`:
every attempt sleeps 200ms before fetching (`src/src/hosted.ts` line 211),
and each retry sleeps another 200ms before recursing (line 227). -/
def attemptFetchDelay : List ApiResp → Nat → Nat
  | [], _ => 0
  | r :: rest, retryCount =>
      200 + match r with
      | .logs stdout _ =>
          if stdout = "" ∧ retryCount < maxRetries then
            200 + attemptFetchDelay rest (retryCount + 1)
          else 0
      | _ => 0

/-- Total milliseconds `fetchCrashLogs` spends sleeping for a given
response sequence. -/
def fetchCrashLogsDelay (resps : List ApiResp) : Nat :=
  attemptFetchDelay resps 0

/-! ### Concrete example inputs used by witnesses and counterexamples -/

/-- A `podInfo` payload naming two init containers and one main container
(the shapes used throughout spec §8). -/
def examplePodInfo : PodInfo :=
  { createdAt := "2024-01-01T00:00:00Z", pod := "pod-1",
    initContainers := ["download", "unzip"], containers := ["main"] }

/-- A second, different `podInfo` payload for the same session. -/
def examplePodInfo2 : PodInfo :=
  { createdAt := "2024-01-01T00:05:00Z", pod := "pod-2",
    initContainers := ["download", "unzip"], containers := ["main"] }

/-- A concrete `mainContainerCrashed` event. -/
def exampleCrash : Event :=
  Event.mainContainerCrashed "2024-01-01T00:01:00Z" "2024-01-01T00:02:00Z" 1
    (some "OOMKilled")

/-- The state after the first `podInfo` event of a session. -/
def exampleStateWithPod : DeploymentState :=
  reduce initialDeploymentState (Event.podInfo examplePodInfo)

/-- `exampleStateWithPod` after the `download` init container terminated
successfully (status `completed`). -/
def exampleStateCompleted : DeploymentState :=
  reduce exampleStateWithPod
    (Event.initContainerTerminated "download" "t1" "t2" 0 none)

/-! ### Lemmas about the container map -/

theorem lookupC_setC (cs : List ContainerState) (c : ContainerState) (n : String) :
    lookupC (setC cs c) n = if c.name = n then some c else lookupC cs n := by
  induction cs with
  | nil =>
    by_cases h : c.name = n <;> simp [setC, lookupC, List.find?, h]
  | cons d rest ih =>
    by_cases hd : d.name = c.name
    · by_cases h : c.name = n
      · simp [setC, lookupC, List.find?, hd, h]
      · have hdn : ¬ d.name = n := by rw [hd]; exact h
        simp [setC, lookupC, List.find?, hd, h, hdn]
    · by_cases hdn : d.name = n
      · have h : ¬ c.name = n := fun hcn => hd (by rw [hdn, hcn])
        have h' : ¬ n = c.name := fun hh => h hh.symm
        simp [setC, lookupC, List.find?, hd, hdn, h, h']
      · simpa [setC, lookupC, List.find?, hd, hdn] using ih

theorem lookupC_foldl_setC_not_mem (f : String → ContainerState)
    (hf : ∀ m, (f m).name = m) (names : List String) (cs : List ContainerState)
    (n : String) (hn : n ∉ names) :
    lookupC (names.foldl (fun acc m => setC acc (f m)) cs) n = lookupC cs n := by
  induction names generalizing cs with
  | nil => rfl
  | cons m rest ih =>
    have hmem : n ∉ rest := fun h => hn (List.mem_cons_of_mem _ h)
    have hne : ¬ (f m).name = n := by
      rw [hf m]; exact fun h => hn (h ▸ List.mem_cons_self m rest)
    calc lookupC ((m :: rest).foldl (fun acc m => setC acc (f m)) cs) n
        = lookupC (rest.foldl (fun acc m => setC acc (f m)) (setC cs (f m))) n := rfl
      _ = lookupC (setC cs (f m)) n := ih _ hmem
      _ = lookupC cs n := by rw [lookupC_setC]; simp [hne]

theorem lookupC_foldl_setC_mem (f : String → ContainerState)
    (hf : ∀ m, (f m).name = m) (names : List String) (cs : List ContainerState)
    (n : String) (hn : n ∈ names) :
    lookupC (names.foldl (fun acc m => setC acc (f m)) cs) n = some (f n) := by
  induction names generalizing cs with
  | nil => cases hn
  | cons m rest ih =>
    by_cases hr : n ∈ rest
    · exact ih _ hr
    · have hm : n = m := by
        rcases List.mem_cons.mp hn with h | h
        · exact h
        · exact absurd h hr
      subst hm
      calc lookupC ((n :: rest).foldl (fun acc m => setC acc (f m)) cs) n
          = lookupC (rest.foldl (fun acc m => setC acc (f m)) (setC cs (f n))) n := rfl
        _ = lookupC (setC cs (f n)) n := lookupC_foldl_setC_not_mem f hf rest _ n hr
        _ = some (f n) := by rw [lookupC_setC]; simp [hf n]

theorem lookupC_map (f : ContainerState → ContainerState)
    (hf : ∀ c, (f c).name = c.name) (cs : List ContainerState) (n : String) :
    lookupC (cs.map f) n = (lookupC cs n).map f := by
  induction cs with
  | nil => rfl
  | cons d rest ih =>
    by_cases hd : d.name = n
    · have : (f d).name = n := by rw [hf d, hd]
      simp [lookupC, List.find?, hd, this]
    · have : ¬ (f d).name = n := by rw [hf d]; exact hd
      simpa [lookupC, List.find?, hd, this] using ih

theorem lookupC_name (cs : List ContainerState) (n : String)
    (c : ContainerState) (h : lookupC cs n = some c) : c.name = n := by
  have := List.find?_some h
  simpa using this

/-! ### Lemmas about running the monitors -/

theorem runHosted_append (s : DeploymentState) (es1 es2 : List RawInput)
    (h : (runHosted s es1).2 = none) :
    runHosted s (es1 ++ es2) = runHosted (runHosted s es1).1 es2 := by
  induction es1 generalizing s with
  | nil => rfl
  | cons i rest ih =>
    rcases hstep : hostedStep s i with ⟨s', o⟩
    cases o with
    | some o =>
      exfalso
      have : (runHosted s (i :: rest)).2 = some o := by
        simp [runHosted, hstep]
      rw [h] at this
      cases this
    | none =>
      have h' : (runHosted s' rest).2 = none := by
        have : runHosted s (i :: rest) = runHosted s' rest := by
          simp [runHosted, hstep]
        rw [this] at h
        exact h
      calc runHosted s (i :: rest ++ es2)
          = runHosted s' (rest ++ es2) := by simp [runHosted, hstep]
        _ = runHosted (runHosted s' rest).1 es2 := ih s' h'
        _ = runHosted (runHosted s (i :: rest)).1 es2 := by simp [runHosted, hstep]

theorem runMonitor_append (follow : Bool) (s : DeploymentState)
    (es1 es2 : List MonInput) (h : (runMonitor follow s es1).2 = none) :
    runMonitor follow s (es1 ++ es2)
      = runMonitor follow (runMonitor follow s es1).1 es2 := by
  induction es1 generalizing s with
  | nil => rfl
  | cons i rest ih =>
    rcases hstep : monitorStep follow s i with ⟨s', o⟩
    cases o with
    | some o =>
      exfalso
      have : (runMonitor follow s (i :: rest)).2 = some o := by
        simp [runMonitor, hstep]
      rw [h] at this
      cases this
    | none =>
      have h' : (runMonitor follow s' rest).2 = none := by
        have : runMonitor follow s (i :: rest) = runMonitor follow s' rest := by
          simp [runMonitor, hstep]
        rw [this] at h
        exact h
      calc runMonitor follow s (i :: rest ++ es2)
          = runMonitor follow s' (rest ++ es2) := by simp [runMonitor, hstep]
        _ = runMonitor follow (runMonitor follow s' rest).1 es2 := ih s' h'
        _ = runMonitor follow (runMonitor follow s (i :: rest)).1 es2 := by
            simp [runMonitor, hstep]

/-! ### Preservation lemmas for the in-source event listener -/

/-- The `hosted.ts` event switch never touches `isComplete` (only the
`done` branch, handled before the switch, does). -/
theorem reduce_isComplete (s : DeploymentState) (e : Event) :
    (reduce s e).isComplete = s.isComplete := by
  cases e <;> rfl

/-- Any listener delivery other than `done` leaves `isComplete` as it was. -/
theorem hostedStep_isComplete (s : DeploymentState) (i : RawInput)
    (h : i ≠ .done) :
    ((hostedStep s i).1).isComplete = s.isComplete := by
  cases i with
  | invalidJson => rfl
  | done => exact absurd rfl h
  | unknownType => rfl
  | ev e => exact reduce_isComplete s e

/-- Over a `done`-free delivery sequence, `isComplete` never changes. -/
theorem runHosted_isComplete (s : DeploymentState) (es : List RawInput)
    (h : ∀ i ∈ es, i ≠ RawInput.done) :
    ((runHosted s es).1).isComplete = s.isComplete := by
  induction es generalizing s with
  | nil => rfl
  | cons i rest ih =>
    have hi : i ≠ RawInput.done := h i (List.mem_cons_self i rest)
    have hrest : ∀ j ∈ rest, j ≠ RawInput.done :=
      fun j hj => h j (List.mem_cons_of_mem _ hj)
    rcases hstep : hostedStep s i with ⟨s', o⟩
    have hs' : s'.isComplete = s.isComplete := by
      have := hostedStep_isComplete s i hi
      rw [hstep] at this
      exact this
    cases o with
    | some o => simpa [runHosted, hstep] using hs'
    | none =>
      calc ((runHosted s (i :: rest)).1).isComplete
          = ((runHosted s' rest).1).isComplete := by simp [runHosted, hstep]
        _ = s'.isComplete := ih s' hrest
        _ = s.isComplete := hs'

/-- An event that is not `podInfo` cannot populate an empty container map,
and never writes `podInfo`. -/
theorem reduce_no_podInfo (s : DeploymentState) (e : Event)
    (h : ∀ info, e ≠ Event.podInfo info) :
    (reduce s e).podInfo = s.podInfo ∧
    (s.containers = [] → (reduce s e).containers = []) := by
  cases e with
  | podInfo info => exact absurd rfl (h info)
  | initContainerRunning name =>
    exact ⟨rfl, fun hc => by simp [reduce, hc]⟩
  | initContainerTerminated name st fin ec r =>
    exact ⟨rfl, fun hc => by simp [reduce, hc]⟩
  | mainContainerRunning =>
    exact ⟨rfl, fun hc => by simp [reduce, hc]⟩
  | mainContainerReady =>
    exact ⟨rfl, fun hc => by simp [reduce, hc]⟩
  | mainContainerCrashed st fin ec r =>
    exact ⟨rfl, fun hc => by simp [reduce, hc]⟩
  | mainContainerCrashBackOff r n =>
    exact ⟨rfl, fun hc => hc⟩
  | errorEvent msg =>
    exact ⟨rfl, fun hc => hc⟩

/-- A delivery that is not a `podInfo` event cannot populate an empty
container map and never writes `podInfo`. -/
theorem hostedStep_no_podInfo (s : DeploymentState) (i : RawInput)
    (h : ∀ info, i ≠ RawInput.ev (Event.podInfo info)) :
    ((hostedStep s i).1).podInfo = s.podInfo ∧
    (s.containers = [] → ((hostedStep s i).1).containers = []) := by
  cases i with
  | invalidJson => exact ⟨rfl, fun hc => hc⟩
  | done => exact ⟨rfl, fun hc => hc⟩
  | unknownType => exact ⟨rfl, fun hc => hc⟩
  | ev e =>
    have he : ∀ info, e ≠ Event.podInfo info := fun info heq => h info (by rw [heq])
    exact reduce_no_podInfo s e he

/-- Deliveries that carry no `podInfo` event keep the container map empty
and `podInfo` unset, whether or not the session terminates on them. -/
theorem runHosted_no_podInfo (s : DeploymentState) (es : List RawInput)
    (h : ∀ i ∈ es, ∀ info, i ≠ RawInput.ev (Event.podInfo info))
    (hc : s.containers = []) (hp : s.podInfo = none) :
    ((runHosted s es).1).containers = [] ∧
    ((runHosted s es).1).podInfo = none := by
  induction es generalizing s with
  | nil => exact ⟨hc, hp⟩
  | cons i rest ih =>
    have hrest : ∀ j ∈ rest, ∀ info, j ≠ RawInput.ev (Event.podInfo info) :=
      fun j hj => h j (List.mem_cons_of_mem _ hj)
    have hstep' := hostedStep_no_podInfo s i (h i (List.mem_cons_self i rest))
    rcases hstep : hostedStep s i with ⟨s', o⟩
    rw [hstep] at hstep'
    have hs' : s'.containers = [] ∧ s'.podInfo = none :=
      ⟨hstep'.2 hc, hstep'.1.trans hp⟩
    cases o with
    | some o => simpa [runHosted, hstep] using hs'
    | none =>
      have : runHosted s (i :: rest) = runHosted s' rest := by
        simp [runHosted, hstep]
      rw [this]
      exact ih s' hrest hs'.1 hs'.2

/-- A step that produces no settlement leaves the `isReady` and
`hasCrashed` flags false when they were false before it (otherwise the
terminal checks after the switch would have fired). -/
theorem hostedStep_none_flags (s : DeploymentState) (i : RawInput)
    (h1 : s.isReady = false) (h2 : s.hasCrashed = false)
    (h : (hostedStep s i).2 = none) :
    ((hostedStep s i).1).isReady = false ∧
    ((hostedStep s i).1).hasCrashed = false := by
  cases i with
  | invalidJson => exact ⟨h1, h2⟩
  | done => simp [hostedStep] at h
  | unknownType => exact ⟨h1, h2⟩
  | ev e =>
    by_cases hr : (reduce s e).isReady
    · simp [hostedStep, hr] at h
    · by_cases hcr : (reduce s e).hasCrashed
      · simp [hostedStep, hr, hcr] at h
      · exact ⟨by simpa [hostedStep] using hr, by simpa [hostedStep] using hcr⟩

/-- A run that has not settled keeps `isReady` and `hasCrashed` false. -/
theorem runHosted_none_flags (s : DeploymentState) (es : List RawInput)
    (h1 : s.isReady = false) (h2 : s.hasCrashed = false)
    (hnone : (runHosted s es).2 = none) :
    ((runHosted s es).1).isReady = false ∧
    ((runHosted s es).1).hasCrashed = false := by
  induction es generalizing s with
  | nil => exact ⟨h1, h2⟩
  | cons i rest ih =>
    rcases hstep : hostedStep s i with ⟨s', o⟩
    cases o with
    | some o =>
      exfalso
      have : (runHosted s (i :: rest)).2 = some o := by simp [runHosted, hstep]
      rw [hnone] at this
      cases this
    | none =>
      have hflags := hostedStep_none_flags s i h1 h2 (by rw [hstep])
      rw [hstep] at hflags
      have hrun : runHosted s (i :: rest) = runHosted s' rest := by
        simp [runHosted, hstep]
      rw [hrun] at hnone ⊢
      exact ih s' hflags.1 hflags.2 hnone

/-! ### Claim theorems -/

/-- C1: in the Outcome-returning deployment monitor (modelled from the
spec), whenever a `done` event arrives in a session that has not yet
settled, the monitor resolves with an Outcome whose `deployed` field is
true and whose `stabilized` field equals NOT `hasCrashed` at that moment
(so `done` after a crash gives `stabilized = false`, and `done` with no
crash gives `stabilized = true`). -/
theorem monitor_done_resolves_deployed_not_hasCrashed (follow : Bool)
    (s : DeploymentState) (es : List MonInput)
    (h : (runMonitor follow s es).2 = none) :
    runMonitor follow s (es ++ [MonInput.doneEv])
      = ({ (runMonitor follow s es).1 with isComplete := true },
         some { deployed := true,
                stabilized := !((runMonitor follow s es).1).hasCrashed,
                podName := podNameOf (runMonitor follow s es).1 }) := by
  rw [runMonitor_append follow s es [MonInput.doneEv] h]
  rfl

/-- Witness for C1: with `follow = true`, a main-container crash followed
by `done` resolves with `deployed = true, stabilized = false`. -/
theorem monitor_done_resolves_deployed_not_hasCrashed_witness :
    (runMonitor true initialDeploymentState [MonInput.ev exampleCrash]).2 = none ∧
    runMonitor true initialDeploymentState
        ([MonInput.ev exampleCrash] ++ [MonInput.doneEv])
      = ({ (runMonitor true initialDeploymentState [MonInput.ev exampleCrash]).1 with
            isComplete := true },
         some { deployed := true,
                stabilized :=
                  !((runMonitor true initialDeploymentState
                      [MonInput.ev exampleCrash]).1).hasCrashed,
                podName := podNameOf (runMonitor true initialDeploymentState
                  [MonInput.ev exampleCrash]).1 }) :=
  ⟨by decide,
   monitor_done_resolves_deployed_not_hasCrashed true initialDeploymentState
     [MonInput.ev exampleCrash] (by decide)⟩

/-- C2: in the Outcome-returning deployment monitor (modelled from the
spec), a stream transport error before any terminal state, an
unrecoverable parse failure, or the 5-minute timeout elapsing while
`isComplete` is still false each produce a well-formed Outcome with
`deployed = false` and `stabilized = false`; the monitor is a total
function, so no internal exception can escape to the caller on these
paths. -/
theorem monitor_failure_paths_well_formed_outcome (follow : Bool)
    (s : DeploymentState) (es : List MonInput)
    (h : (runMonitor follow s es).2 = none) :
    (runMonitor follow s (es ++ [MonInput.streamError])).2
      = some { deployed := false, stabilized := false,
               podName := podNameOf (runMonitor follow s es).1 } ∧
    (runMonitor follow s (es ++ [MonInput.fatalParse])).2
      = some { deployed := false, stabilized := false,
               podName := podNameOf (runMonitor follow s es).1 } ∧
    (((runMonitor follow s es).1).isComplete = false →
      (runMonitor follow s (es ++ [MonInput.timeout])).2
        = some { deployed := false, stabilized := false,
                 podName := podNameOf (runMonitor follow s es).1 }) := by
  refine ⟨?_, ?_, ?_⟩
  · rw [runMonitor_append follow s es _ h]
    rfl
  · rw [runMonitor_append follow s es _ h]
    rfl
  · intro hic
    rw [runMonitor_append follow s es _ h]
    simp [runMonitor, monitorStep, hic]

/-- Witness for C2: after a benign malformed payload, each of the three
failure inputs settles the session with `deployed = false,
stabilized = false`. -/
theorem monitor_failure_paths_well_formed_outcome_witness :
    (runMonitor false initialDeploymentState [MonInput.malformed "bad"]).2 = none ∧
    (runMonitor false initialDeploymentState
        ([MonInput.malformed "bad"] ++ [MonInput.streamError])).2
      = some { deployed := false, stabilized := false,
               podName := podNameOf (runMonitor false initialDeploymentState
                 [MonInput.malformed "bad"]).1 } :=
  ⟨by decide,
   (monitor_failure_paths_well_formed_outcome false initialDeploymentState
     [MonInput.malformed "bad"] (by decide)).1⟩

/-- Skipping `k` responses whose logs have empty `stdout` advances the
retry counter by `k` while it stays within `maxRetries`. -/
theorem attemptFetch_skip_empty (e : String) (rest : List ApiResp) :
    ∀ (k retryCount : Nat), retryCount + k ≤ maxRetries →
      attemptFetch (List.replicate k (ApiResp.logs "" e) ++ rest) retryCount
        = attemptFetch rest (retryCount + k) := by
  intro k
  induction k with
  | zero =>
    intro rc h
    simp
  | succ k ih =>
    intro rc h
    have hrc : rc < maxRetries := by omega
    calc attemptFetch (List.replicate (k+1) (ApiResp.logs "" e) ++ rest) rc
        = attemptFetch (List.replicate k (ApiResp.logs "" e) ++ rest) (rc + 1) := by
          simp [List.replicate_succ, attemptFetch, hrc]
      _ = attemptFetch rest ((rc + 1) + k) := ih (rc + 1) (by omega)
      _ = attemptFetch rest (rc + (k + 1)) := by
          congr 1
          omega

/-- C7: `fetchCrashLogs` retries only while `stdout` is empty and fewer
than `maxRetries = 50` retries have been used: it returns the logs of the
first response with non-empty `stdout` (after `k ≤ 50` empty responses,
at attempt `k+1`, not earlier); after a response run that exhausts all 50
retries it returns whatever the last attempt observed, even both-empty
logs; and an API-level error or a thrown exception aborts the loop and
returns `none` instead of throwing. -/
theorem fetchCrashLogs_retry_policy (k : Nat) (e out err2 : String)
    (rest : List ApiResp) (hk : k ≤ maxRetries) :
    (out ≠ "" →
      fetchCrashLogs (List.replicate k (ApiResp.logs "" e)
          ++ ApiResp.logs out err2 :: rest)
        = some (out, err2)) ∧
    fetchCrashLogs (List.replicate (maxRetries + 1) (ApiResp.logs "" e) ++ rest)
      = some ("", e) ∧
    fetchCrashLogs (List.replicate k (ApiResp.logs "" e) ++ ApiResp.apiError :: rest)
      = none ∧
    fetchCrashLogs (List.replicate k (ApiResp.logs "" e) ++ ApiResp.exn :: rest)
      = none := by
  refine ⟨?_, ?_, ?_, ?_⟩
  · intro hout
    unfold fetchCrashLogs
    rw [attemptFetch_skip_empty e _ k 0 (by omega)]
    simp [attemptFetch, hout]
  · unfold fetchCrashLogs
    have hrepl : List.replicate (maxRetries + 1) (ApiResp.logs "" e) ++ rest
        = List.replicate maxRetries (ApiResp.logs "" e)
          ++ ApiResp.logs "" e :: rest := by
      rw [List.replicate_succ']
      simp
    rw [hrepl, attemptFetch_skip_empty e _ maxRetries 0 (by omega)]
    simp [attemptFetch]
  · unfold fetchCrashLogs
    rw [attemptFetch_skip_empty e _ k 0 (by omega)]
    rfl
  · unfold fetchCrashLogs
    rw [attemptFetch_skip_empty e _ k 0 (by omega)]
    rfl

/-- Witness for C7: stdout empty for attempts 1-9 and populated at attempt
10 yields the populated logs. -/
theorem fetchCrashLogs_retry_policy_witness :
    9 ≤ maxRetries ∧
    fetchCrashLogs (List.replicate 9 (ApiResp.logs "" "boot")
        ++ ApiResp.logs "hello" "warn" :: [])
      = some ("hello", "warn") :=
  ⟨by decide,
   (fetchCrashLogs_retry_policy 9 "boot" "hello" "warn" [] (by decide)).1
     (by decide)⟩

/-- C8 (the code contradicts its own comment "50 retries * 100ms = 5
seconds max" and the claimed `maxRetries × delay` bound): with 51
consecutive empty-stdout responses, `fetchCrashLogs` sleeps for 20200 ms
in total — every attempt sleeps 200 ms before fetching and every retry
sleeps another 200 ms — which exceeds `maxRetries × 200 = 10000` ms. -/
theorem fetchCrashLogsDelay_exceeds_documented_bound :
    fetchCrashLogsDelay (List.replicate (maxRetries + 1) (ApiResp.logs "" ""))
      = 20200 ∧
    fetchCrashLogs (List.replicate (maxRetries + 1) (ApiResp.logs "" ""))
      = some ("", "") ∧
    maxRetries * 200 < 20200 := by
  refine ⟨by decide, by decide, by decide⟩

/-- C3 counterexample: the reducer does not guard on prior status — after
`mainContainerReady` the main container is `ready`, and a later
`mainContainerRunning` event moves it backward to `running`. -/
theorem container_status_monotone_cex :
    statusOf (reduce exampleStateWithPod Event.mainContainerReady) "main"
      = some ContainerStatus.ready ∧
    statusOf (reduce (reduce exampleStateWithPod Event.mainContainerReady)
        Event.mainContainerRunning) "main"
      = some ContainerStatus.running := by
  refine ⟨by decide, by decide⟩

/-- Step case for the amended C3: a single event that is not a `podInfo`,
not an `initContainerRunning` naming this container, and (for a main-kind
container) not a `mainContainerRunning`, keeps the container present with
its kind unchanged and its status in {completed, failed, ready} whenever
it was there before. -/
theorem container_terminal_status_step (s : DeploymentState) (name : String)
    (c : ContainerState) (e : Event)
    (hc : lookupC s.containers name = some c)
    (hst : c.status = ContainerStatus.completed ∨
           c.status = ContainerStatus.failed ∨
           c.status = ContainerStatus.ready)
    (hpod : ∀ info, e ≠ Event.podInfo info)
    (hicr : e ≠ Event.initContainerRunning name)
    (hmcr : c.type = CKind.main → e ≠ Event.mainContainerRunning) :
    ∃ c', lookupC (reduce s e).containers name = some c' ∧
      c'.type = c.type ∧
      (c'.status = ContainerStatus.completed ∨
        c'.status = ContainerStatus.failed ∨
        c'.status = ContainerStatus.ready) := by
  have hcname : c.name = name := lookupC_name _ _ _ hc
  cases e with
  | podInfo info => exact absurd rfl (hpod info)
  | initContainerRunning m =>
    have hm : ¬ c.name = m := by
      rw [hcname]
      intro hnm
      exact hicr (by rw [hnm])
    have hf : ∀ d : ContainerState,
        ((fun d => if d.name = m then { d with status := ContainerStatus.running } else d) d).name
          = d.name := by
      intro d
      by_cases hd : d.name = m <;> simp [hd]
    refine ⟨c, ?_, rfl, hst⟩
    simp only [reduce]
    rw [lookupC_map _ hf, hc]
    simp [hm]
  | mainContainerRunning =>
    have ht : ¬ c.type = CKind.main := fun h => (hmcr h) rfl
    have hf : ∀ d : ContainerState,
        ((fun d => if d.type = CKind.main then { d with status := ContainerStatus.running } else d) d).name
          = d.name := by
      intro d
      by_cases hd : d.type = CKind.main <;> simp [hd]
    refine ⟨c, ?_, rfl, hst⟩
    simp only [reduce]
    rw [lookupC_map _ hf, hc]
    simp [ht]
  | initContainerTerminated m st fin ec r =>
    have hf : ∀ d : ContainerState,
        ((fun d => if d.name = m then
            { d with
              status := if ec = 0 then ContainerStatus.completed else ContainerStatus.failed,
              startedAt := some st,
              finishedAt := some fin,
              exitCode := some ec,
              reason := r }
          else d) d).name = d.name := by
      intro d
      by_cases hd : d.name = m <;> simp [hd]
    by_cases hm : c.name = m
    · refine ⟨{ c with
          status := if ec = 0 then ContainerStatus.completed else ContainerStatus.failed,
          startedAt := some st,
          finishedAt := some fin,
          exitCode := some ec,
          reason := r }, ?_, rfl, ?_⟩
      · simp only [reduce]
        rw [lookupC_map _ hf, hc]
        simp [hm]
      · by_cases hec : ec = 0 <;> simp [hec]
    · refine ⟨c, ?_, rfl, hst⟩
      simp only [reduce]
      rw [lookupC_map _ hf, hc]
      simp [hm]
  | mainContainerReady =>
    have hf : ∀ d : ContainerState,
        ((fun d => if d.type = CKind.main then { d with status := ContainerStatus.ready } else d) d).name
          = d.name := by
      intro d
      by_cases hd : d.type = CKind.main <;> simp [hd]
    by_cases ht : c.type = CKind.main
    · refine ⟨{ c with status := ContainerStatus.ready }, ?_, rfl, Or.inr (Or.inr rfl)⟩
      simp only [reduce]
      rw [lookupC_map _ hf, hc]
      simp [ht]
    · refine ⟨c, ?_, rfl, hst⟩
      simp only [reduce]
      rw [lookupC_map _ hf, hc]
      simp [ht]
  | mainContainerCrashed st fin ec r =>
    have hf : ∀ d : ContainerState,
        ((fun d => if d.type = CKind.main then
            { d with
              status := ContainerStatus.failed,
              startedAt := some st,
              finishedAt := some fin,
              exitCode := some ec,
              reason := r }
          else d) d).name = d.name := by
      intro d
      by_cases hd : d.type = CKind.main <;> simp [hd]
    by_cases ht : c.type = CKind.main
    · refine ⟨{ c with
          status := ContainerStatus.failed,
          startedAt := some st,
          finishedAt := some fin,
          exitCode := some ec,
          reason := r }, ?_, rfl, Or.inr (Or.inl rfl)⟩
      simp only [reduce]
      rw [lookupC_map _ hf, hc]
      simp [ht]
    · refine ⟨c, ?_, rfl, hst⟩
      simp only [reduce]
      rw [lookupC_map _ hf, hc]
      simp [ht]
  | mainContainerCrashBackOff r n => exact ⟨c, hc, rfl, hst⟩
  | errorEvent msg => exact ⟨c, hc, rfl, hst⟩

/-- C3 as amended: once a container's status is `completed`, `failed`, or
`ready`, it stays in {completed, failed, ready} — in particular it never
moves backward to `pending` or `running` — across any later event
sequence that contains no `podInfo` event, no `initContainerRunning`
event naming that container, and, when the container's kind is main, no
`mainContainerRunning` event; the excluded events do move statuses
backward (see the counterexample), because the reducer does not guard on
prior status. -/
theorem container_status_not_reset_by_other_events (s : DeploymentState)
    (name : String) (c : ContainerState) (es : List Event)
    (hc : lookupC s.containers name = some c)
    (hst : c.status = ContainerStatus.completed ∨
           c.status = ContainerStatus.failed ∨
           c.status = ContainerStatus.ready)
    (hes : ∀ e ∈ es, (∀ info, e ≠ Event.podInfo info) ∧
           e ≠ Event.initContainerRunning name ∧
           (c.type = CKind.main → e ≠ Event.mainContainerRunning)) :
    ∃ c', lookupC (reduceList s es).containers name = some c' ∧
      c'.type = c.type ∧
      (c'.status = ContainerStatus.completed ∨
        c'.status = ContainerStatus.failed ∨
        c'.status = ContainerStatus.ready) ∧
      statusOf (reduceList s es) name ≠ some ContainerStatus.pending ∧
      statusOf (reduceList s es) name ≠ some ContainerStatus.running := by
  induction es generalizing s c with
  | nil =>
    refine ⟨c, hc, rfl, hst, ?_, ?_⟩ <;>
      · show (lookupC s.containers name).map (fun c => c.status) ≠ _
        rw [hc]
        rcases hst with h | h | h <;> simp [h]
  | cons e rest ih =>
    obtain ⟨hpod, hicr, hmcr⟩ := hes e (List.mem_cons_self e rest)
    obtain ⟨c₁, hc₁, ht₁, hst₁⟩ :=
      container_terminal_status_step s name c e hc hst hpod hicr hmcr
    have hes' : ∀ e' ∈ rest, (∀ info, e' ≠ Event.podInfo info) ∧
        e' ≠ Event.initContainerRunning name ∧
        (c₁.type = CKind.main → e' ≠ Event.mainContainerRunning) := by
      intro e' he'
      obtain ⟨h1, h2, h3⟩ := hes e' (List.mem_cons_of_mem _ he')
      exact ⟨h1, h2, fun hm => h3 (ht₁.symm.trans hm)⟩
    have hfold : reduceList s (e :: rest) = reduceList (reduce s e) rest := rfl
    rw [hfold]
    obtain ⟨c', h1', h2', h3', h4', h5'⟩ := ih (reduce s e) c₁ hc₁ hst₁ hes'
    exact ⟨c', h1', h2'.trans ht₁, h3', h4', h5'⟩

/-- Witness for C3 as amended: with `download` completed, the later
sequence [backend error, main-container crash] keeps it out of
pending/running. -/
theorem container_status_not_reset_by_other_events_witness :
    lookupC exampleStateCompleted.containers "download"
        = some { name := "download", type := CKind.init,
                 status := ContainerStatus.completed,
                 startedAt := some "t1", finishedAt := some "t2",
                 exitCode := some 0, reason := none } ∧
    ∃ c', lookupC (reduceList exampleStateCompleted
          [Event.errorEvent "backend hiccup", exampleCrash]).containers
          "download" = some c' ∧
      c'.type = CKind.init ∧
      (c'.status = ContainerStatus.completed ∨
        c'.status = ContainerStatus.failed ∨
        c'.status = ContainerStatus.ready) ∧
      statusOf (reduceList exampleStateCompleted
          [Event.errorEvent "backend hiccup", exampleCrash]) "download"
        ≠ some ContainerStatus.pending ∧
      statusOf (reduceList exampleStateCompleted
          [Event.errorEvent "backend hiccup", exampleCrash]) "download"
        ≠ some ContainerStatus.running := by
  refine ⟨by decide, ?_⟩
  obtain ⟨c', h1, h2, h3, h4, h5⟩ :=
    container_status_not_reset_by_other_events exampleStateCompleted "download"
      { name := "download", type := CKind.init,
        status := ContainerStatus.completed,
        startedAt := some "t1", finishedAt := some "t2",
        exitCode := some 0, reason := none }
      [Event.errorEvent "backend hiccup", exampleCrash]
      (by decide) (by decide)
      (fun e he => by
        rcases List.mem_cons.mp he with rfl | he2
        · exact ⟨(fun info h => by cases h), (by decide), (fun _ => by decide)⟩
        · rcases List.mem_singleton.mp he2 with rfl
          exact ⟨(fun info h => by cases h), (by decide), (fun _ => by decide)⟩)
  exact ⟨c', h1, h2, h3, h4, h5⟩

/-- C4 counterexample: reducing a `mainContainerCrashBackOff` event does
NOT set the main container's status to `crashBackOff` (the `hosted.ts`
switch has no case for it): the status stays `pending` and `restarts`
stays unset. -/
theorem crashBackOff_event_cex :
    statusOf (reduce exampleStateWithPod
        (Event.mainContainerCrashBackOff (some "CrashLoopBackOff") 3)) "main"
      ≠ some ContainerStatus.crashBackOff ∧
    statusOf (reduce exampleStateWithPod
        (Event.mainContainerCrashBackOff (some "CrashLoopBackOff") 3)) "main"
      = some ContainerStatus.pending ∧
    (lookupC (reduce exampleStateWithPod
        (Event.mainContainerCrashBackOff (some "CrashLoopBackOff") 3)).containers
        "main").map (fun c => c.restarts)
      = some none := by
  refine ⟨by decide, by decide, by decide⟩

/-- C4 as amended: reducing a `mainContainerCrashBackOff` event leaves the
state entirely unchanged — in particular `hasCrashed` is unchanged, no
container status becomes `crashBackOff`, and no `reason`/`restarts` field
is set — because the event switch in `src/src/hosted.ts` has no case for
this event type. -/
theorem crashBackOff_event_leaves_state_unchanged (s : DeploymentState)
    (reason : Option String) (restarts : Int) :
    reduce s (Event.mainContainerCrashBackOff reason restarts) = s := rfl

/-- C5 counterexample: `podInfo` is not set at most once — a second
`podInfo` event in the same session overwrites `state.podInfo` and resets
the already-`completed` container `download` back to a fresh pending
record. -/
theorem podInfo_set_once_cex :
    exampleStateCompleted.podInfo = some examplePodInfo ∧
    statusOf exampleStateCompleted "download" = some ContainerStatus.completed ∧
    (reduce exampleStateCompleted (Event.podInfo examplePodInfo2)).podInfo
      = some examplePodInfo2 ∧
    examplePodInfo2 ≠ examplePodInfo ∧
    statusOf (reduce exampleStateCompleted (Event.podInfo examplePodInfo2))
        "download"
      = some ContainerStatus.pending := by
  refine ⟨by decide, by decide, by decide, by decide, by decide⟩

/-- C5 as amended: every `podInfo` event — first or repeated —
unconditionally overwrites `state.podInfo` and re-creates a fresh pending
record for every container named in its lists (main lists win for names in
both), while containers not named in either list are left unchanged; the
reducer has no at-most-once guard. -/
theorem podInfo_event_overwrites (s : DeploymentState) (info : PodInfo) :
    (reduce s (Event.podInfo info)).podInfo = some info ∧
    (∀ n ∈ info.containers,
      lookupC (reduce s (Event.podInfo info)).containers n
        = some { name := n, type := CKind.main, status := ContainerStatus.pending }) ∧
    (∀ n ∈ info.initContainers, n ∉ info.containers →
      lookupC (reduce s (Event.podInfo info)).containers n
        = some { name := n, type := CKind.init, status := ContainerStatus.pending }) ∧
    (∀ n, n ∉ info.initContainers → n ∉ info.containers →
      lookupC (reduce s (Event.podInfo info)).containers n
        = lookupC s.containers n) := by
  refine ⟨rfl, ?_, ?_, ?_⟩
  · intro n hn
    simp only [reduce, applyPodInfo]
    exact lookupC_foldl_setC_mem
      (fun n => { name := n, type := CKind.main, status := ContainerStatus.pending })
      (fun m => rfl) info.containers _ n hn
  · intro n hn hnc
    simp only [reduce, applyPodInfo]
    rw [lookupC_foldl_setC_not_mem
      (fun n => { name := n, type := CKind.main, status := ContainerStatus.pending })
      (fun m => rfl) info.containers _ n hnc]
    exact lookupC_foldl_setC_mem
      (fun n => { name := n, type := CKind.init, status := ContainerStatus.pending })
      (fun m => rfl) info.initContainers _ n hn
  · intro n h1 h2
    simp only [reduce, applyPodInfo]
    rw [lookupC_foldl_setC_not_mem
      (fun n => { name := n, type := CKind.main, status := ContainerStatus.pending })
      (fun m => rfl) info.containers _ n h2]
    exact lookupC_foldl_setC_not_mem
      (fun n => { name := n, type := CKind.init, status := ContainerStatus.pending })
      (fun m => rfl) info.initContainers _ n h1

/-- Witness for C5 as amended: a second `podInfo` event over a session
with a completed container re-creates `main` as a pending main record. -/
theorem podInfo_event_overwrites_witness :
    "main" ∈ examplePodInfo2.containers ∧
    lookupC (reduce exampleStateCompleted
        (Event.podInfo examplePodInfo2)).containers "main"
      = some { name := "main", type := CKind.main,
               status := ContainerStatus.pending } :=
  ⟨by decide,
   (podInfo_event_overwrites exampleStateCompleted examplePodInfo2).2.1 "main"
     (by decide)⟩

/-- C6 counterexample: a payload that parses as JSON but fails the
expected shape (an unrecognized `type`) is NOT recorded in `state.errors`:
the listener leaves the state — `errors` included — unchanged. -/
theorem malformed_shape_not_logged_cex :
    hostedStep initialDeploymentState RawInput.unknownType
      = (initialDeploymentState, none) ∧
    initialDeploymentState.errors = [] := by
  refine ⟨by decide, by decide⟩

/-- C6 as amended: the listener never throws (it is a total function); a
payload whose JSON parsing throws is caught and recorded as the entry
"Failed to parse deployment log" in `state.errors` and the session
continues with subsequent events, while a payload that parses but has an
unrecognized `type` is silently ignored — no `errors` entry — and also
does not by itself terminate the session. -/
theorem malformed_payload_logged_and_continues (s : DeploymentState)
    (rest : List RawInput) (h1 : s.isReady = false) (h2 : s.hasCrashed = false) :
    hostedStep s RawInput.invalidJson
      = ({ s with errors := s.errors ++ ["Failed to parse deployment log"] }, none) ∧
    hostedStep s RawInput.unknownType = (s, none) ∧
    runHosted s (RawInput.invalidJson :: rest)
      = runHosted { s with errors := s.errors ++ ["Failed to parse deployment log"] } rest ∧
    runHosted s (RawInput.unknownType :: rest) = runHosted s rest := by
  refine ⟨rfl, ?_, ?_, ?_⟩
  · simp [hostedStep, h1, h2]
  · simp [runHosted, hostedStep]
  · simp [runHosted, hostedStep, h1, h2]

/-- Witness for C6 as amended: a parse-throwing payload logs the entry and
the session goes on to process a later ready event. -/
theorem malformed_payload_logged_and_continues_witness :
    initialDeploymentState.isReady = false ∧
    runHosted initialDeploymentState
        (RawInput.invalidJson :: [RawInput.ev Event.mainContainerReady])
      = runHosted { initialDeploymentState with
          errors := initialDeploymentState.errors ++ ["Failed to parse deployment log"] }
          [RawInput.ev Event.mainContainerReady] :=
  ⟨rfl,
   (malformed_payload_logged_and_continues initialDeploymentState
     [RawInput.ev Event.mainContainerReady] rfl rfl).2.2.1⟩

/-- C9: in a session that has processed no `podInfo` event and has not
settled, the container map is empty and no pod name is known, yet a
`mainContainerReady` event still sets `isReady` and resolves, and a
`mainContainerCrashed` event still sets `hasCrashed` and settles the
session (with no main container record for the crash message); neither
appends anything to `state.errors`. -/
theorem ready_or_crash_without_podInfo (es : List RawInput)
    (st fin : String) (ec : Int) (r : Option String)
    (hnp : ∀ i ∈ es, ∀ info, i ≠ RawInput.ev (Event.podInfo info))
    (hnone : (runHosted initialDeploymentState es).2 = none) :
    ((runHosted initialDeploymentState es).1).containers = [] ∧
    ((runHosted initialDeploymentState es).1).podInfo = none ∧
    runHosted initialDeploymentState (es ++ [RawInput.ev Event.mainContainerReady])
      = ({ (runHosted initialDeploymentState es).1 with isReady := true },
         some HostedOutcome.resolved) ∧
    runHosted initialDeploymentState
        (es ++ [RawInput.ev (Event.mainContainerCrashed st fin ec r)])
      = ({ (runHosted initialDeploymentState es).1 with hasCrashed := true },
         some (HostedOutcome.rejectedCrash none)) := by
  obtain ⟨hc, hp⟩ := runHosted_no_podInfo initialDeploymentState es hnp rfl rfl
  obtain ⟨hr, hcr⟩ := runHosted_none_flags initialDeploymentState es rfl rfl hnone
  refine ⟨hc, hp, ?_, ?_⟩
  · rw [runHosted_append _ es _ hnone]
    simp [runHosted, hostedStep, reduce, hc]
  · rw [runHosted_append _ es _ hnone]
    simp [runHosted, hostedStep, reduce, hc, hr, findMain]

/-- Witness for C9: from a fresh session, a lone `mainContainerCrashed`
event settles the session with an empty container map and no pod name. -/
theorem ready_or_crash_without_podInfo_witness :
    (runHosted initialDeploymentState []).2 = none ∧
    runHosted initialDeploymentState
        ([] ++ [RawInput.ev (Event.mainContainerCrashed "s" "f" 1 (some "OOMKilled"))])
      = ({ (runHosted initialDeploymentState []).1 with hasCrashed := true },
         some (HostedOutcome.rejectedCrash none)) :=
  ⟨rfl,
   (ready_or_crash_without_podInfo [] "s" "f" 1 (some "OOMKilled")
     (fun i hi => absurd hi (List.not_mem_nil i)) rfl).2.2.2⟩

/-- C10: `isComplete` is set only by a `done` delivery — any other
delivery leaves it false — and over any `done`-free session (including one
that settled through a ready or crash event) the final state still has
`isComplete = false`, so the 5-minute timer's guard passes and its body
closes the stream again and rejects. -/
theorem isComplete_only_done_and_timer_fires :
    (∀ (s : DeploymentState) (i : RawInput), s.isComplete = false →
      ((((hostedStep s i).1).isComplete = true) ↔ i = RawInput.done)) ∧
    (∀ es : List RawInput, (∀ i ∈ es, i ≠ RawInput.done) →
      ((runHosted initialDeploymentState es).1).isComplete = false ∧
      timerFires ((runHosted initialDeploymentState es).1) = true ∧
      timerStep ((runHosted initialDeploymentState es).1)
        = some HostedOutcome.rejectedTimeout) := by
  constructor
  · intro s i h
    cases i with
    | invalidJson => simp [hostedStep, h]
    | done => simp [hostedStep]
    | unknownType => simp [hostedStep, h]
    | ev e => simp [hostedStep, reduce_isComplete, h]
  · intro es hnd
    have hic : ((runHosted initialDeploymentState es).1).isComplete = false :=
      runHosted_isComplete initialDeploymentState es hnd
    exact ⟨hic, by simp [timerFires, hic], by simp [timerStep, hic]⟩

/-- Witness for C10: after a session resolved by `mainContainerReady`, the
timer guard still passes and the timer body still rejects. -/
theorem isComplete_only_done_and_timer_fires_witness :
    ((runHosted initialDeploymentState [RawInput.ev Event.mainContainerReady]).2
        = some HostedOutcome.resolved) ∧
    ((runHosted initialDeploymentState [RawInput.ev Event.mainContainerReady]).1).isComplete
        = false ∧
    timerFires ((runHosted initialDeploymentState
        [RawInput.ev Event.mainContainerReady]).1) = true ∧
    timerStep ((runHosted initialDeploymentState
        [RawInput.ev Event.mainContainerReady]).1)
      = some HostedOutcome.rejectedTimeout :=
  ⟨by decide,
   isComplete_only_done_and_timer_fires.2 [RawInput.ev Event.mainContainerReady]
     (fun i hi => by
       rcases List.mem_singleton.mp hi with rfl
       decide)⟩

end Mcpboss
